import Mathlib

/-!
Verification of the taskTracker timer-tracking core.

This file gives a shallow embedding of the timer lifecycle service
(timer.service.js), the Mongoose model methods of Timer, Task, User and
Group (timer.model.js / task.model.js / user.model.js / group.model.js),
and the leaderboard service (leaderboard.service.js), and proves the
spec's claims about them.

Conventions of the embedding:
* timestamps are integers (milliseconds since epoch, as in JS Date);
* JS numbers holding counters / durations are integers; the fractional
  completion rate is a rational;
* Mongo documents live in in-memory lists; `save` is replace-by-id;
* a thrown JS error is `TRes.err e s` where `s` is the system state at
  the moment of the throw (mutations already awaited stay committed);
* the Redis active-timer index is a list of ((userId, taskId), timerId)
  entries; Redis failures are modelled by a boolean `cacheFails` oracle:
  when it is set, the unguarded `redisClient.set/del` call in the timer
  service throws.
-/

namespace TaskTracker

/-- JS `Math.round`: round half toward positive infinity. -/
def jsRound (q : ℚ) : ℤ := ⌊q + 1/2⌋

/-- `Math.round(x * 100) / 100`, i.e. rounding to 2 decimal places. -/
def roundTo2 (q : ℚ) : ℚ := (jsRound (q * 100) : ℚ) / 100

/-- Timer document (timer.model.js schema). -/
structure Timer where
  id : Nat
  task : Nat
  user : Nat
  group : Option Nat
  startTime : ℤ
  endTime : Option ℤ
  duration : ℤ
  isActive : Bool
  isCompleted : Bool
  completedOnTime : Bool
  notes : String
deriving Repr, DecidableEq

/-- Task status enum (task.model.js). -/
inductive TaskStatus
  | pending
  | inProgress
  | completed
  | cancelled
deriving Repr, DecidableEq

/-- One element of a task's `completedBy` array. -/
structure CompletionEntry where
  user : Nat
  completedAt : ℤ
  timeSpent : ℤ
  completedOnTime : Bool
deriving Repr, DecidableEq

/-- Task document (subset of task.model.js relevant to the timer core). -/
structure Task where
  id : Nat
  creator : Nat
  group : Option Nat
  assignees : List Nat
  status : TaskStatus
  dueDate : ℤ
  completedAt : Option ℤ
  completedBy : List CompletionEntry
  activeTimers : ℤ
  totalTimers : ℤ
deriving Repr, DecidableEq

/-- User document (subset of user.model.js relevant to the timer core). -/
structure User where
  id : Nat
  firstName : String
  lastName : String
  tasksCompleted : ℤ
  taskCompletionRate : ℚ
  totalTimeSpent : ℤ
  lastActive : ℤ
deriving Repr, DecidableEq

/-- Group document (subset of group.model.js relevant to the timer core). -/
structure Group where
  id : Nat
  isPublic : Bool
  leaders : List Nat
  members : List Nat
  completedTasks : ℤ
  totalTasks : ℤ
  totalTimeSpent : ℤ
  lastActive : ℤ
deriving Repr, DecidableEq

/-- The persistent Store: the four Mongo collections plus an id supply. -/
structure DB where
  timers : List Timer
  tasks : List Task
  users : List User
  groups : List Group
  nextTimerId : Nat
deriving Repr, DecidableEq

/-- Full system state: Store plus the Redis active-timer index
(`timer:{userId}:{taskId} -> timerId`). -/
structure Sys where
  db : DB
  idx : List ((Nat × Nat) × Nat)
deriving Repr, DecidableEq

def DB.findTask (db : DB) (id : Nat) : Option Task :=
  db.tasks.find? (fun t => t.id == id)

def DB.findUser (db : DB) (id : Nat) : Option User :=
  db.users.find? (fun u => u.id == id)

def DB.findGroup (db : DB) (id : Nat) : Option Group :=
  db.groups.find? (fun g => g.id == id)

/-- `Timer.findOne({ user: userId, isActive: true })`. -/
def DB.findActiveTimer (db : DB) (userId : Nat) : Option Timer :=
  db.timers.find? (fun t => t.user == userId && t.isActive)

def DB.saveTimer (db : DB) (t : Timer) : DB :=
  { db with timers := db.timers.map (fun x => if x.id == t.id then t else x) }

def DB.saveTask (db : DB) (t : Task) : DB :=
  { db with tasks := db.tasks.map (fun x => if x.id == t.id then t else x) }

def DB.saveUser (db : DB) (u : User) : DB :=
  { db with users := db.users.map (fun x => if x.id == u.id then u else x) }

def DB.saveGroup (db : DB) (g : Group) : DB :=
  { db with groups := db.groups.map (fun x => if x.id == g.id then g else x) }

/-- `timerSchema.methods.calculateDuration`:
`Math.round((endTime - startTime) / (1000 * 60))`, where a still-running
timer uses the current instant in place of `endTime`. -/
def Timer.calculateDuration (t : Timer) (now : ℤ) : ℤ :=
  let endTime := t.endTime.getD now
  jsRound (((endTime - t.startTime : ℤ) : ℚ) / (1000 * 60))

/-- `timerSchema.methods.complete`: set `endTime`, clear `isActive`, set
`isCompleted`, compute `duration`, optionally store notes, and set
`completedOnTime := now <= task.dueDate` when the referenced task is found. -/
def Timer.completeM (t : Timer) (db : DB) (notes : String) (now : ℤ) : Timer :=
  let t1 : Timer := { t with endTime := some now, isActive := false, isCompleted := true }
  let t2 : Timer := { t1 with duration := t1.calculateDuration now }
  let t3 : Timer := if notes == "" then t2 else { t2 with notes := notes }
  match db.findTask t.task with
  | some task => { t3 with completedOnTime := decide (now ≤ task.dueDate) }
  | none => t3

/-- `taskSchema.methods.startTimer`: bump both timer counters and force the
status to `in-progress`. -/
def Task.startTimerM (t : Task) : Task :=
  { t with activeTimers := t.activeTimers + 1
         , totalTimers := t.totalTimers + 1
         , status := TaskStatus.inProgress }

/-- `taskSchema.methods.markAsCompleted`: append a `completedBy` entry, flip
the status to `completed` (first completion only), and decrement
`activeTimers` clamped at 0.  Returns the updated task together with the
`{timeSpent, completedOnTime}` result object. -/
def Task.markAsCompleted (t : Task) (userId : Nat) (timeSpent : ℤ) (now : ℤ) :
    Task × ℤ × Bool :=
  let completedOnTime := decide (now ≤ t.dueDate)
  let t1 : Task :=
    { t with completedBy :=
        t.completedBy ++ [⟨userId, now, timeSpent, completedOnTime⟩] }
  let t2 : Task :=
    if t1.status == TaskStatus.completed then t1
    else { t1 with status := TaskStatus.completed, completedAt := some now }
  let t3 : Task := { t2 with activeTimers := max 0 (t2.activeTimers - 1) }
  (t3, timeSpent, completedOnTime)

/-- `userSchema.methods.updateStats`: increment `tasksCompleted`, add the
task time, and recompute the completion rate as a running weighted average
rounded to 2 decimals. -/
def User.updateStats (u : User) (taskTime : ℤ) (completedOnTime : Bool) (now : ℤ) : User :=
  let n : ℤ := u.tasksCompleted + 1
  let newCompletionRate : ℚ :=
    (u.taskCompletionRate * ((n : ℚ) - 1) + (if completedOnTime then 100 else 0)) / (n : ℚ)
  { u with tasksCompleted := n
         , totalTimeSpent := u.totalTimeSpent + taskTime
         , taskCompletionRate := (jsRound (newCompletionRate * 100) : ℚ) / 100
         , lastActive := now }

/-- `groupSchema.methods.updateStats`. -/
def Group.updateStatsM (g : Group) (taskTime : ℤ) (now : ℤ) : Group :=
  { g with completedTasks := g.completedTasks + 1
         , totalTimeSpent := g.totalTimeSpent + taskTime
         , lastActive := now }

/-- The access check shared by `startTimer` and `listTaskTimers`: creator,
assignee, or (for a group task) member/leader of the group. -/
def taskAccess (db : DB) (task : Task) (userId : Nat) : Bool :=
  let isCreator := task.creator == userId
  let isAssignee := task.assignees.contains userId
  let hasAccess := isCreator || isAssignee
  match task.group with
  | some gid =>
      if !hasAccess then
        match db.findGroup gid with
        | some g => g.leaders.contains userId || g.members.contains userId
        | none => hasAccess
      else hasAccess
  | none => hasAccess

/-- Domain and infrastructure errors thrown by the timer service. -/
inductive TimerErr
  | activeTimerExists
  | taskNotFound
  | invalidTaskState (s : TaskStatus)
  | forbidden
  | noActiveTimer
  | userNotFound
  | cacheError
deriving Repr, DecidableEq

/-- Result of a service call: either a value with the final state, or a
thrown error together with the state at the moment of the throw. -/
inductive TRes (α : Type)
  | ok (sys : Sys) (val : α)
  | err (e : TimerErr) (sys : Sys)
deriving Repr, DecidableEq

def resState {α : Type} : TRes α → Sys
  | .ok s _ => s
  | .err _ s => s

def TRes.isOk {α : Type} : TRes α → Bool
  | .ok _ _ => true
  | .err _ _ => false

/-- `redisClient.set`: the index keeps one value per (userId, taskId) key. -/
def indexSet (idx : List ((Nat × Nat) × Nat)) (k : Nat × Nat) (v : Nat) :
    List ((Nat × Nat) × Nat) :=
  (idx.filter (fun e => e.1 != k)) ++ [(k, v)]

/-- `redisClient.del`. -/
def indexDel (idx : List ((Nat × Nat) × Nat)) (k : Nat × Nat) :
    List ((Nat × Nat) × Nat) :=
  idx.filter (fun e => e.1 != k)

/-- View returned by a successful `startTimer`. -/
structure TimerView where
  id : Nat
  taskId : Nat
  startTime : ℤ
  isActive : Bool
deriving Repr, DecidableEq

/-- The fresh timer document built by `startTimer`. -/
def newTimer (db : DB) (taskId userId : Nat) (grp : Option Nat) (now : ℤ) : Timer :=
  { id := db.nextTimerId, task := taskId, user := userId, group := grp
  , startTime := now, endTime := none, duration := 0
  , isActive := true, isCompleted := false, completedOnTime := false, notes := "" }

/-- The Store mutations of a successful `startTimer`: persist the new timer,
run `task.startTimer()`, and add the caller to the assignees when absent. -/
def startMutations (db : DB) (task : Task) (userId : Nat) (timer : Timer) : DB :=
  let db1 : DB := { db with timers := db.timers ++ [timer]
                          , nextTimerId := db.nextTimerId + 1 }
  let task1 := task.startTimerM
  let db2 := db1.saveTask task1
  if task.assignees.contains userId then db2
  else db2.saveTask { task1 with assignees := task1.assignees ++ [userId] }

/-- `startTimer(taskId, userId)` from timer.service.js.  `cacheFails` makes
the final (unguarded) `redisClient.set` throw. -/
def startTimer (cacheFails : Bool) (sys : Sys) (taskId userId : Nat) (now : ℤ) :
    TRes TimerView :=
  match sys.db.findActiveTimer userId with
  | some _ => .err .activeTimerExists sys
  | none =>
    match sys.db.findTask taskId with
    | none => .err .taskNotFound sys
    | some task =>
      if task.status == TaskStatus.completed || task.status == TaskStatus.cancelled then
        .err (.invalidTaskState task.status) sys
      else if !(taskAccess sys.db task userId) then
        .err .forbidden sys
      else
        if cacheFails then
          .err .cacheError
            ⟨startMutations sys.db task userId (newTimer sys.db taskId userId task.group now)
            , sys.idx⟩
        else
          .ok ⟨startMutations sys.db task userId (newTimer sys.db taskId userId task.group now)
              , indexSet sys.idx (userId, taskId) (newTimer sys.db taskId userId task.group now).id⟩
            ⟨(newTimer sys.db taskId userId task.group now).id, taskId, now, true⟩

/-- View returned by a successful `completeTimer`. -/
structure CompleteView where
  id : Nat
  taskId : Nat
  taskStatus : TaskStatus
  startTime : ℤ
  endTime : Option ℤ
  duration : ℤ
  completedOnTime : Bool
  isActive : Bool
  isCompleted : Bool
deriving Repr, DecidableEq

/-- The optional group-stat update at the end of `completeTimer`. -/
def groupUpdate (db : DB) (grp : Option Nat) (duration : ℤ) (now : ℤ) : DB :=
  match grp with
  | some gid =>
      match db.findGroup gid with
      | some g => db.saveGroup (g.updateStatsM duration now)
      | none => db
  | none => db

/-- The Store mutations of `completeTimer` up to the user lookup: complete
and persist the timer, then run `task.markAsCompleted` and persist the
task.  Returns (completed timer, completed task, Store). -/
def completeStage1 (db : DB) (timer : Timer) (task : Task) (userId : Nat)
    (notes : String) (now : ℤ) : Timer × Task × DB :=
  let timer1 := timer.completeM db notes now
  let db1 := db.saveTimer timer1
  let task1 := (task.markAsCompleted userId timer1.duration now).1
  (timer1, task1, db1.saveTask task1)

/-- The remaining Store mutations of `completeTimer`: user stats, then the
optional group stats. -/
def completeStage2 (db2 : DB) (user : User) (timer1 : Timer) (grp : Option Nat)
    (now : ℤ) : DB :=
  let db3 := db2.saveUser (user.updateStats timer1.duration timer1.completedOnTime now)
  groupUpdate db3 grp timer1.duration now

/-- `completeTimer(userId, notes)` from timer.service.js.  `cacheFails`
makes the final (unguarded) `redisClient.del` throw. -/
def completeTimer (cacheFails : Bool) (sys : Sys) (userId : Nat) (notes : String)
    (now : ℤ) : TRes CompleteView :=
  match sys.db.findActiveTimer userId with
  | none => .err .noActiveTimer sys
  | some timer =>
    match sys.db.findTask timer.task with
    | none => .err .taskNotFound sys
    | some task =>
      match (completeStage1 sys.db timer task userId notes now).2.2.findUser userId with
      | none => .err .userNotFound
          ⟨(completeStage1 sys.db timer task userId notes now).2.2, sys.idx⟩
      | some user =>
        if cacheFails then
          .err .cacheError
            ⟨completeStage2 (completeStage1 sys.db timer task userId notes now).2.2 user
                (completeStage1 sys.db timer task userId notes now).1 task.group now
            , sys.idx⟩
        else
          .ok ⟨completeStage2 (completeStage1 sys.db timer task userId notes now).2.2 user
                  (completeStage1 sys.db timer task userId notes now).1 task.group now
              , indexDel sys.idx (userId, timer.task)⟩
            ⟨(completeStage1 sys.db timer task userId notes now).1.id, task.id
            , (completeStage1 sys.db timer task userId notes now).2.1.status
            , (completeStage1 sys.db timer task userId notes now).1.startTime
            , (completeStage1 sys.db timer task userId notes now).1.endTime
            , (completeStage1 sys.db timer task userId notes now).1.duration
            , (completeStage1 sys.db timer task userId notes now).1.completedOnTime
            , false, true⟩

/-- View returned by `getActiveTimer`. -/
structure ActiveTimerView where
  id : Nat
  taskId : Nat
  startTime : ℤ
  duration : ℤ
  isActive : Bool
deriving Repr, DecidableEq

/-- `getActiveTimer(userId)`: pure read; live duration via
`calculateDuration` at the current instant. -/
def getActiveTimer (db : DB) (userId : Nat) (now : ℤ) : Option ActiveTimerView :=
  match db.findActiveTimer userId with
  | none => none
  | some t => some ⟨t.id, t.task, t.startTime, t.calculateDuration now, true⟩

/-- Insertion of one element into a list sorted descending by `key`. -/
def insertByDesc {α : Type} (key : α → ℤ) (a : α) : List α → List α
  | [] => [a]
  | b :: l => if key b < key a then a :: b :: l else b :: insertByDesc key a l

/-- Sort a list descending by `key` (models the descending sorts of the
timer and leaderboard services). -/
def sortByDesc {α : Type} (key : α → ℤ) : List α → List α
  | [] => []
  | a :: l => insertByDesc key a (sortByDesc key l)

/-- Pagination metadata of `listTaskTimers`. -/
structure Pagination where
  page : Nat
  limit : Nat
  totalItems : Nat
  totalPages : Nat
  hasNextPage : Bool
  hasPrevPage : Bool
deriving Repr, DecidableEq

/-- `listTaskTimers(taskId, userId, options)`: access-checked, read-only
page of the task's timers ordered by startTime descending. -/
def listTaskTimers (sys : Sys) (taskId userId : Nat) (page limit : Nat) :
    TRes (List Timer × Pagination) :=
  match sys.db.findTask taskId with
  | none => .err .taskNotFound sys
  | some task =>
    if !(taskAccess sys.db task userId) then
      .err .forbidden sys
    else
      let all := sys.db.timers.filter (fun t => t.task == taskId)
      let total := all.length
      let skip := (page - 1) * limit
      let timers := ((sortByDesc (fun t => t.startTime) all).drop skip).take limit
      let totalPages := (total + limit - 1) / limit
      .ok sys (timers
        , ⟨page, limit, total, totalPages
          , decide (page < totalPages), decide (1 < page)⟩)

/-- One 24-hour day in milliseconds. -/
def dayMs : ℤ := 86400000

/-- Time-window cutoff of the group leaderboard (`week` = 7 days,
`month` = 30 days, anything else = no filter). -/
def groupCutoff (timeFrame : String) (now : ℤ) : Option ℤ :=
  if timeFrame == "week" then some (now - 7 * dayMs)
  else if timeFrame == "month" then some (now - 30 * dayMs)
  else none

/-- Time-window cutoff of the global leaderboard (adds `year` = 365 days). -/
def globalCutoff (timeFrame : String) (now : ℤ) : Option ℤ :=
  if timeFrame == "week" then some (now - 7 * dayMs)
  else if timeFrame == "month" then some (now - 30 * dayMs)
  else if timeFrame == "year" then some (now - 365 * dayMs)
  else none

/-- Mongo filter `endTime: { $gte: cutoff }` (absent endTime never matches). -/
def timerInWindow (t : Timer) (cutoff : Option ℤ) : Bool :=
  match cutoff with
  | none => true
  | some c =>
      match t.endTime with
      | some e => decide (c ≤ e)
      | none => false

/-- Per-user aggregation of a timer list (the `userStats` map of the
leaderboard service: count, total duration, on-time count). -/
structure UserAgg where
  tasksCompleted : ℤ
  totalTime : ℤ
  tasksCompletedOnTime : ℤ
deriving Repr, DecidableEq

def aggFor (timers : List Timer) (userId : Nat) : UserAgg :=
  timers.foldl
    (fun acc t =>
      if t.user == userId then
        ⟨acc.tasksCompleted + 1
        , acc.totalTime + t.duration
        , acc.tasksCompletedOnTime + (if t.completedOnTime then 1 else 0)⟩
      else acc)
    ⟨0, 0, 0⟩

/-- `Math.round((onTime / completed) * 100)` guarded by `completed > 0`. -/
def completionRate (agg : UserAgg) : ℤ :=
  if 0 < agg.tasksCompleted then
    jsRound ((agg.tasksCompletedOnTime : ℚ) / (agg.tasksCompleted : ℚ) * 100)
  else 0

/-- One row of the group leaderboard. -/
structure GroupLBEntry where
  userId : Nat
  name : String
  tasksCompleted : ℤ
  totalTime : ℤ
  completionRate : ℤ
  isLeader : Bool
deriving Repr, DecidableEq

/-- The completed timers of the group's tasks, by the group's users, inside
the requested window — the `Timer.find` of `generateGroupLeaderboard`. -/
def groupWindowTimers (db : DB) (group : Group) (groupId : Nat)
    (timeFrame : String) (now : ℤ) : List Timer :=
  let userIds := group.members ++ group.leaders
  let taskIds := (db.tasks.filter (fun t => t.group == some groupId)).map Task.id
  db.timers.filter (fun t =>
    taskIds.contains t.task && userIds.contains t.user && t.isCompleted
      && timerInWindow t (groupCutoff timeFrame now))

/-- `generateGroupLeaderboard(groupId, { timeFrame })`: one row per found
member/leader user record, zero stats for users with no matching timers,
sorted descending by tasks completed.  It performs no cache access. -/
def generateGroupLeaderboard (db : DB) (groupId : Nat) (timeFrame : String)
    (now : ℤ) : Except String (List GroupLBEntry) :=
  match db.findGroup groupId with
  | none => .error "Group not found"
  | some group =>
    let userIds := group.members ++ group.leaders
    let timers := groupWindowTimers db group groupId timeFrame now
    let users := db.users.filter (fun u => userIds.contains u.id)
    let entries := users.map (fun u =>
      let stats := aggFor timers u.id
      GroupLBEntry.mk u.id (u.firstName ++ " " ++ u.lastName)
        stats.tasksCompleted stats.totalTime (completionRate stats)
        (group.leaders.contains u.id))
    .ok (sortByDesc (fun e => e.tasksCompleted) entries)

/-- One row of the global leaderboard (also the cached value type). -/
structure GlobalLBEntry where
  userId : Nat
  name : String
  tasksCompleted : ℤ
  totalTime : ℤ
  completionRate : ℤ
deriving Repr, DecidableEq

/-- A Redis cache entry for the global leaderboard, with its absolute
expiry instant (set via `EX: 3600` seconds). -/
structure LBCacheEntry where
  key : String
  value : List GlobalLBEntry
  expiresAt : ℤ
deriving Repr, DecidableEq

/-- Redis `get` on the leaderboard cache: a key past its expiry is gone. -/
def lbCacheGet (cache : List LBCacheEntry) (key : String) (now : ℤ) :
    Option (List GlobalLBEntry) :=
  match cache.find? (fun e => e.key == key) with
  | some e => if now < e.expiresAt then some e.value else none
  | none => none

/-- Redis `set` with TTL on the leaderboard cache. -/
def lbCacheSet (cache : List LBCacheEntry) (key : String)
    (v : List GlobalLBEntry) (expiresAt : ℤ) : List LBCacheEntry :=
  (cache.filter (fun e => e.key != key)) ++ [⟨key, v, expiresAt⟩]

/-- The cache key of the global leaderboard. -/
def globalKey (timeFrame : String) : String := "leaderboard:global:" ++ timeFrame

/-- First-appearance deduplication (the key set of the `$group` stage). -/
def dedup (l : List Nat) : List Nat :=
  l.foldl (fun acc x => if acc.contains x then acc else acc ++ [x]) []

/-- The completed timers of public groups inside the window — the `$match`
stage of `generateGlobalLeaderboard`'s aggregation pipeline (it matches on
the timer's denormalized `group` field). -/
def globalWindowTimers (db : DB) (timeFrame : String) (now : ℤ) : List Timer :=
  let publicGroupIds := (db.groups.filter Group.isPublic).map Group.id
  db.timers.filter (fun t =>
    (match t.group with
     | some g => publicGroupIds.contains g
     | none => false)
      && t.isCompleted && timerInWindow t (globalCutoff timeFrame now))

/-- The fresh (cache-independent) computation of the global leaderboard:
aggregate per user, sort descending by count, keep `limit * 2` rows, then
join with the user collection dropping unknown users. -/
def computeGlobalEntries (db : DB) (timeFrame : String) (limit : Nat)
    (now : ℤ) : List GlobalLBEntry :=
  let timers := globalWindowTimers db timeFrame now
  let statsList := (dedup (timers.map Timer.user)).map (fun u => (u, aggFor timers u))
  let timerStats := (sortByDesc (fun p => p.2.tasksCompleted) statsList).take (limit * 2)
  (timerStats.map (fun p =>
      match db.findUser p.1 with
      | none => none
      | some u => some (GlobalLBEntry.mk u.id (u.firstName ++ " " ++ u.lastName)
          p.2.tasksCompleted p.2.totalTime (completionRate p.2))))
    |>.filterMap id

/-- `generateGlobalLeaderboard({ timeFrame, limit })`: guarded cache read
(failure logged and ignored), fresh computation on miss, guarded cache
write with a 1-hour TTL (failure logged and ignored), result truncated to
`limit`.  `getFails` / `setFails` are the Redis failure oracles. -/
def generateGlobalLeaderboard (getFails setFails : Bool) (db : DB)
    (cache : List LBCacheEntry) (timeFrame : String) (limit : Nat) (now : ℤ) :
    List GlobalLBEntry × List LBCacheEntry :=
  let hit := if getFails then none else lbCacheGet cache (globalKey timeFrame) now
  match hit with
  | some cached => (cached.take limit, cache)
  | none =>
    let entries := computeGlobalEntries db timeFrame limit now
    let cache1 :=
      if setFails then cache
      else lbCacheSet cache (globalKey timeFrame) entries (now + 3600 * 1000)
    (entries.take limit, cache1)

/-- The group-leaderboard endpoint seen with the cache threaded through:
the function body contains no Redis call, so the cache is returned as-is
and the result does not depend on it. -/
def groupLeaderboardOp (db : DB) (cache : List LBCacheEntry) (groupId : Nat)
    (timeFrame : String) (now : ℤ) :
    Except String (List GroupLBEntry) × List LBCacheEntry :=
  (generateGroupLeaderboard db groupId timeFrame now, cache)

/-! ## Step relation and reachability -/

/-- One service call, as a transition on the system state (the state after
a thrown error is the state at the throw). -/
inductive Step : Sys → Sys → Prop
  | start (s : Sys) (cf : Bool) (taskId userId : Nat) (now : ℤ) :
      Step s (resState (startTimer cf s taskId userId now))
  | complete (s : Sys) (cf : Bool) (userId : Nat) (notes : String) (now : ℤ) :
      Step s (resState (completeTimer cf s userId notes now))
  | getActive (s : Sys) (userId : Nat) (now : ℤ) : Step s s
  | list (s : Sys) (taskId userId page limit : Nat) :
      Step s (resState (listTaskTimers s taskId userId page limit))

/-- States reachable from `s0` by core-operation steps. -/
inductive Reachable (s0 : Sys) : Sys → Prop
  | refl : Reachable s0 s0
  | step {s t : Sys} : Reachable s0 s → Step s t → Reachable s0 t

/-- Number of active timers of user `u` in the Store. -/
def activeCount (db : DB) (u : Nat) : Nat :=
  (db.timers.filter (fun t => t.user == u && t.isActive)).length

/-- The per-user at-most-one-active-timer invariant. -/
def ActiveInv (db : DB) : Prop := ∀ u, activeCount db u ≤ 1

/-- Well-formedness of timer ids: pairwise distinct and below the id
supply, so `save` replaces exactly the intended document. -/
def IdInv (db : DB) : Prop :=
  (db.timers.map Timer.id).Nodup ∧ ∀ t ∈ db.timers, t.id < db.nextTimerId

/-! ## Demo world used by witnesses -/

/-- A pending solo task with due date 100000 created by user 20. -/
def demoTask : Task :=
  { id := 10, creator := 20, group := none, assignees := [], status := .pending
  , dueDate := 100000, completedAt := none, completedBy := []
  , activeTimers := 0, totalTimers := 0 }

/-- A fresh user. -/
def demoUser : User :=
  { id := 20, firstName := "A", lastName := "B", tasksCompleted := 0
  , taskCompletionRate := 0, totalTimeSpent := 0, lastActive := 0 }

/-- Initial state: one task, one user, no timers, empty index. -/
def demoSys0 : Sys := ⟨⟨[], [demoTask], [demoUser], [], 0⟩, []⟩

/-- State after user 20 starts a timer on task 10 at t=1000. -/
def demoSys1 : Sys := resState (startTimer false demoSys0 10 20 1000)

/-- State after user 20 completes that timer at t=91000 (90 s later). -/
def demoSys2 : Sys := resState (completeTimer false demoSys1 20 "" 91000)

/-- The timer document created in `demoSys1`. -/
def demoTimerA : Timer :=
  { id := 0, task := 10, user := 20, group := none, startTime := 1000
  , endTime := none, duration := 0, isActive := true, isCompleted := false
  , completedOnTime := false, notes := "" }

/-! ## Helper lemmas -/

theorem jsRound_nonneg (q : ℚ) (h : 0 ≤ q) : 0 ≤ jsRound q := by
  unfold jsRound
  have : ((0 : ℤ) : ℚ) ≤ q + 1/2 := by push_cast; linarith
  exact Int.le_floor.mpr this

theorem jsRound_near (q : ℚ) : |(jsRound q : ℚ) - q| ≤ 1/2 := by
  unfold jsRound
  have h1 : ((⌊q + 1/2⌋ : ℤ) : ℚ) ≤ q + 1/2 := Int.floor_le _
  have h2 : q + 1/2 - 1 < ((⌊q + 1/2⌋ : ℤ) : ℚ) := Int.sub_one_lt_floor _
  rw [abs_le]
  constructor <;> linarith

theorem completeM_duration (t : Timer) (db : DB) (notes : String) (now : ℤ) :
    (t.completeM db notes now).duration
      = jsRound (((now - t.startTime : ℤ) : ℚ) / (1000 * 60)) := by
  unfold Timer.completeM
  cases hf : db.findTask t.task <;>
    by_cases hn : notes == "" <;>
      simp [hf, hn, Timer.calculateDuration]

theorem completeM_isActive (t : Timer) (db : DB) (notes : String) (now : ℤ) :
    (t.completeM db notes now).isActive = false := by
  unfold Timer.completeM
  cases hf : db.findTask t.task <;>
    by_cases hn : notes == "" <;>
      simp [hf, hn]

theorem completeM_id (t : Timer) (db : DB) (notes : String) (now : ℤ) :
    (t.completeM db notes now).id = t.id := by
  unfold Timer.completeM
  cases hf : db.findTask t.task <;>
    by_cases hn : notes == "" <;>
      simp [hf, hn]

theorem completeM_completedOnTime (t : Timer) (db : DB) (notes : String)
    (now : ℤ) (task : Task) (hfind : db.findTask t.task = some task) :
    (t.completeM db notes now).completedOnTime = decide (now ≤ task.dueDate) := by
  unfold Timer.completeM
  by_cases hn : notes == "" <;> simp [hfind, hn]

/-! ## C2: conflicting start -/

/-- C2: when the user already has an active timer, `startTimer` throws the
Conflict error before any mutation: the timer collection, the task
collection and the active-timer index are exactly those of the pre-state. -/
theorem startTimer_conflict_spec (cf : Bool) (sys : Sys) (taskId userId : Nat)
    (now : ℤ) (t : Timer) (h : sys.db.findActiveTimer userId = some t) :
    startTimer cf sys taskId userId now = .err .activeTimerExists sys ∧
    (resState (startTimer cf sys taskId userId now)).db.timers = sys.db.timers ∧
    (resState (startTimer cf sys taskId userId now)).db.tasks = sys.db.tasks ∧
    (resState (startTimer cf sys taskId userId now)).idx = sys.idx := by
  have he : startTimer cf sys taskId userId now = .err .activeTimerExists sys := by
    unfold startTimer
    rw [h]
  exact ⟨he, by rw [he]; rfl, by rw [he]; rfl, by rw [he]; rfl⟩

/-- C2 witness: starting a second timer in `demoSys1` conflicts and
changes nothing. -/
theorem startTimer_conflict_witness :
    startTimer false demoSys1 10 20 2000 = .err .activeTimerExists demoSys1 ∧
    (resState (startTimer false demoSys1 10 20 2000)).db.timers = demoSys1.db.timers ∧
    (resState (startTimer false demoSys1 10 20 2000)).db.tasks = demoSys1.db.tasks ∧
    (resState (startTimer false demoSys1 10 20 2000)).idx = demoSys1.idx :=
  startTimer_conflict_spec false demoSys1 10 20 2000 demoTimerA (by decide)

/-! ## C3: complete with no active timer -/

/-- C3: when the user has no active timer, `completeTimer` throws the
NotFound error before any mutation: every collection and the index are
exactly those of the pre-state. -/
theorem completeTimer_noActive_spec (cf : Bool) (sys : Sys) (userId : Nat)
    (notes : String) (now : ℤ) (h : sys.db.findActiveTimer userId = none) :
    completeTimer cf sys userId notes now = .err .noActiveTimer sys ∧
    (resState (completeTimer cf sys userId notes now)).db.timers = sys.db.timers ∧
    (resState (completeTimer cf sys userId notes now)).db.tasks = sys.db.tasks ∧
    (resState (completeTimer cf sys userId notes now)).db.users = sys.db.users ∧
    (resState (completeTimer cf sys userId notes now)).db.groups = sys.db.groups ∧
    (resState (completeTimer cf sys userId notes now)).idx = sys.idx := by
  have he : completeTimer cf sys userId notes now = .err .noActiveTimer sys := by
    unfold completeTimer
    rw [h]
  exact ⟨he, by rw [he]; rfl, by rw [he]; rfl, by rw [he]; rfl, by rw [he]; rfl, by rw [he]; rfl⟩

/-- C3 witness: completing again in `demoSys2` (timer already completed)
fails with NoActiveTimer and changes nothing. -/
theorem completeTimer_noActive_witness :
    completeTimer false demoSys2 20 "" 95000 = .err .noActiveTimer demoSys2 ∧
    (resState (completeTimer false demoSys2 20 "" 95000)).db.timers = demoSys2.db.timers ∧
    (resState (completeTimer false demoSys2 20 "" 95000)).db.tasks = demoSys2.db.tasks ∧
    (resState (completeTimer false demoSys2 20 "" 95000)).db.users = demoSys2.db.users ∧
    (resState (completeTimer false demoSys2 20 "" 95000)).db.groups = demoSys2.db.groups ∧
    (resState (completeTimer false demoSys2 20 "" 95000)).idx = demoSys2.idx :=
  completeTimer_noActive_spec false demoSys2 20 "" 95000 (by decide)

/-! ## C6: user stat update -/

/-- C6: `updateStats` increments `tasksCompleted`, adds the duration to
`totalTimeSpent`, and recomputes `taskCompletionRate` as the running
weighted average `(oldRate * (n-1) + (onTime ? 100 : 0)) / n` rounded to
2 decimal places, with `n` the post-increment count. -/
theorem updateStats_spec (u : User) (d : ℤ) (ot : Bool) (now : ℤ) :
    (u.updateStats d ot now).tasksCompleted = u.tasksCompleted + 1 ∧
    (u.updateStats d ot now).totalTimeSpent = u.totalTimeSpent + d ∧
    (u.updateStats d ot now).taskCompletionRate =
      roundTo2 ((u.taskCompletionRate * (((u.tasksCompleted + 1 : ℤ) : ℚ) - 1)
        + (if ot then 100 else 0)) / ((u.tasksCompleted + 1 : ℤ) : ℚ)) := by
  refine ⟨rfl, rfl, ?_⟩
  simp [User.updateStats, roundTo2]

/-! ## C7: task completion bookkeeping -/

/-- C7: `markAsCompleted` appends the `{user, completedAt, timeSpent,
completedOnTime}` entry, always ends with status `completed`, sets
`completedAt := now` exactly when the task was not already completed
(otherwise it is untouched), clamps `activeTimers` at 0, and returns the
`{timeSpent, completedOnTime}` pair. -/
theorem markAsCompleted_spec (task : Task) (userId : Nat) (timeSpent now : ℤ) :
    ((task.markAsCompleted userId timeSpent now).1).completedBy =
      task.completedBy ++ [⟨userId, now, timeSpent, decide (now ≤ task.dueDate)⟩] ∧
    ((task.markAsCompleted userId timeSpent now).1).status = TaskStatus.completed ∧
    ((task.markAsCompleted userId timeSpent now).1).completedAt =
      (if task.status == TaskStatus.completed then task.completedAt else some now) ∧
    ((task.markAsCompleted userId timeSpent now).1).activeTimers =
      max 0 (task.activeTimers - 1) ∧
    (task.markAsCompleted userId timeSpent now).2 =
      (timeSpent, decide (now ≤ task.dueDate)) := by
  unfold Task.markAsCompleted
  by_cases h : task.status == TaskStatus.completed <;>
    simp [h] <;>
    simp [beq_iff_eq] at h <;>
    simp [h]

/-! ## C4: the duration law -/

/-- C4: completing a timer started at T0 at instant T1 >= T0 persists
`duration = round((T1 - T0) / 60000 ms)`; the persisted duration is
non-negative; `getActiveTimer` previews the very same value for the still
active timer at the same instant (same rounding rule); and the value is a
nearest integer to the exact minute count (within 1/2, so neither plain
floor nor plain ceil). -/
theorem duration_rounding_spec (t : Timer) (db : DB) (notes : String)
    (u : Nat) (T1 : ℤ)
    (hend : t.endTime = none) (hle : t.startTime ≤ T1)
    (hfind : db.findActiveTimer u = some t) :
    (t.completeM db notes T1).duration
      = jsRound (((T1 - t.startTime : ℤ) : ℚ) / 60000) ∧
    0 ≤ (t.completeM db notes T1).duration ∧
    (getActiveTimer db u T1).map ActiveTimerView.duration
      = some ((t.completeM db notes T1).duration) ∧
    |((t.completeM db notes T1).duration : ℚ)
        - ((T1 - t.startTime : ℤ) : ℚ) / 60000| ≤ 1 / 2 := by
  have hd : (t.completeM db notes T1).duration
      = jsRound (((T1 - t.startTime : ℤ) : ℚ) / 60000) := by
    rw [completeM_duration]
    norm_num
  have hz : (0 : ℤ) ≤ T1 - t.startTime := by linarith
  have hq : (0 : ℚ) ≤ ((T1 - t.startTime : ℤ) : ℚ) / 60000 := by
    have hc : (0 : ℚ) ≤ ((T1 - t.startTime : ℤ) : ℚ) := by exact_mod_cast hz
    positivity
  refine ⟨hd, ?_, ?_, ?_⟩
  · rw [hd]
    exact jsRound_nonneg _ hq
  · have hg : getActiveTimer db u T1
        = some ⟨t.id, t.task, t.startTime, t.calculateDuration T1, true⟩ := by
      unfold getActiveTimer
      rw [hfind]
    rw [hg, hd]
    unfold Timer.calculateDuration
    rw [hend]
    simp only [Option.getD, Option.map]
    norm_num
  · rw [hd]
    exact jsRound_near _

/-- C4 witness: the timer of `demoSys1` (T0 = 1000) completed at
T1 = 91000 (90 s) persists duration 2 minutes (1.5 rounded up), matching
the live preview. -/
theorem duration_rounding_witness :
    (demoTimerA.completeM demoSys1.db "" 91000).duration = 2 ∧
    (getActiveTimer demoSys1.db 20 91000).map ActiveTimerView.duration
      = some ((demoTimerA.completeM demoSys1.db "" 91000).duration) := by
  have h := duration_rounding_spec demoTimerA demoSys1.db "" 20 91000
    (by decide) (by decide) (by decide)
  refine ⟨?_, h.2.2.1⟩
  rw [h.1]
  norm_num [jsRound, demoTimerA]

/-! ## C9: leaderboard cache policy -/

theorem find?_filter_ne_none (cache : List LBCacheEntry) (k : String) :
    (cache.filter (fun e => e.key != k)).find? (fun e => e.key == k) = none := by
  rw [List.find?_eq_none]
  intro x hx
  have hmem := List.of_mem_filter hx
  simp at hmem ⊢
  exact hmem

theorem lbCacheGet_set (cache : List LBCacheEntry) (k : String)
    (v : List GlobalLBEntry) (e now : ℤ) :
    lbCacheGet (lbCacheSet cache k v e) k now
      = if now < e then some v else none := by
  unfold lbCacheGet lbCacheSet
  rw [List.find?_append, find?_filter_ne_none]
  simp [List.find?_cons]

/-- C9: the global leaderboard is cached under the `(global, timeFrame)`
key with a 1-hour expiry (readable 1 ms before the deadline, gone at the
deadline); a cache hit returns the cached list truncated to `limit`
without recomputation (the result does not depend on the Store); a
cache-write failure still returns the freshly computed truncated list and
leaves the cache untouched; and the group-leaderboard path neither reads
nor writes the cache. -/
theorem leaderboard_cache_spec (db dbOther : DB) (cache : List LBCacheEntry)
    (tf : String) (limit : Nat) (now : ℤ) (gid : Nat) :
    (lbCacheGet cache (globalKey tf) now = none →
      (generateGlobalLeaderboard false false db cache tf limit now).2
          = lbCacheSet cache (globalKey tf)
              (computeGlobalEntries db tf limit now) (now + 3600 * 1000)
        ∧ (generateGlobalLeaderboard false false db cache tf limit now).1
          = (computeGlobalEntries db tf limit now).take limit
        ∧ lbCacheGet ((generateGlobalLeaderboard false false db cache tf limit now).2)
            (globalKey tf) (now + 3600 * 1000 - 1)
          = some (computeGlobalEntries db tf limit now)
        ∧ lbCacheGet ((generateGlobalLeaderboard false false db cache tf limit now).2)
            (globalKey tf) (now + 3600 * 1000) = none)
    ∧ (∀ l, lbCacheGet cache (globalKey tf) now = some l →
        generateGlobalLeaderboard false false db cache tf limit now = (l.take limit, cache)
          ∧ generateGlobalLeaderboard false false db cache tf limit now
            = generateGlobalLeaderboard false false dbOther cache tf limit now)
    ∧ (generateGlobalLeaderboard false true db cache tf limit now).1
        = (generateGlobalLeaderboard false false db cache tf limit now).1
    ∧ (generateGlobalLeaderboard false true db cache tf limit now).2 = cache
    ∧ groupLeaderboardOp db cache gid tf now
        = (generateGroupLeaderboard db gid tf now, cache) := by
  refine ⟨?_, ?_, ?_, ?_, rfl⟩
  · intro h
    have h1 : (generateGlobalLeaderboard false false db cache tf limit now).2
        = lbCacheSet cache (globalKey tf)
            (computeGlobalEntries db tf limit now) (now + 3600 * 1000) := by
      unfold generateGlobalLeaderboard
      rw [if_neg (by simp), h]
      rfl
    refine ⟨h1, ?_, ?_, ?_⟩
    · unfold generateGlobalLeaderboard
      rw [if_neg (by simp), h]
    · rw [h1, lbCacheGet_set]
      rw [if_pos (by linarith)]
    · rw [h1, lbCacheGet_set]
      rw [if_neg (by linarith)]
  · intro l h
    constructor
    · unfold generateGlobalLeaderboard
      rw [if_neg (by simp), h]
    · unfold generateGlobalLeaderboard
      rw [if_neg (by simp), h]
  · unfold generateGlobalLeaderboard
    rw [if_neg (by simp)]
    cases h : lbCacheGet cache (globalKey tf) now <;> simp [h]
  · unfold generateGlobalLeaderboard
    rw [if_neg (by simp)]
    cases h : lbCacheGet cache (globalKey tf) now <;> simp [h]

/-! ## C10: leaderboard membership -/

theorem mem_insertByDesc {α : Type} (key : α → ℤ) (a x : α) (l : List α) :
    x ∈ insertByDesc key a l ↔ x = a ∨ x ∈ l := by
  induction l with
  | nil => simp [insertByDesc]
  | cons b l ih =>
    unfold insertByDesc
    by_cases h : key b < key a
    · simp [h]
    · rw [if_neg h]
      simp [ih]
      tauto

theorem mem_sortByDesc {α : Type} (key : α → ℤ) (x : α) (l : List α) :
    x ∈ sortByDesc key l ↔ x ∈ l := by
  induction l with
  | nil => simp [sortByDesc]
  | cons a l ih => simp [sortByDesc, mem_insertByDesc, ih]

theorem mem_dedup_aux (l : List Nat) (acc : List Nat) (x : Nat)
    (h : x ∈ l.foldl (fun a y => if a.contains y then a else a ++ [y]) acc) :
    x ∈ acc ∨ x ∈ l := by
  induction l generalizing acc with
  | nil => exact Or.inl (by simpa using h)
  | cons a l ih =>
    simp only [List.foldl_cons] at h
    rcases ih _ h with h1 | h1
    · by_cases hc : acc.contains a
      · rw [if_pos hc] at h1
        exact Or.inl h1
      · rw [if_neg hc] at h1
        rcases List.mem_append.mp h1 with h2 | h2
        · exact Or.inl h2
        · simp at h2
          subst h2
          simp
    · simp [h1]

theorem mem_dedup (l : List Nat) (x : Nat) (h : x ∈ dedup l) : x ∈ l := by
  rcases mem_dedup_aux l [] x h with h1 | h1
  · simp at h1
  · exact h1

theorem aggFor_of_not_user (timers : List Timer) (u : Nat)
    (h : ∀ t ∈ timers, t.user ≠ u) : aggFor timers u = ⟨0, 0, 0⟩ := by
  unfold aggFor
  induction timers with
  | nil => rfl
  | cons a l ih =>
    have ha : (a.user == u) = false := by
      simpa using h a (List.mem_cons_self a l)
    simp only [List.foldl_cons, ha]
    exact ih (fun t ht => h t (List.mem_cons_of_mem a ht))

/-- C10: the group leaderboard has a row for every found member/leader
record, with all-zero stats for a user with no completed group timer in
the window; every row of a freshly computed global leaderboard belongs to
a user with at least one completed public-group timer in the window. -/
theorem leaderboard_membership_spec
    (db : DB) (gid : Nat) (g : Group) (tf : String) (now : ℤ)
    (u : Nat) (urec : User) (limit : Nat)
    (hg : db.findGroup gid = some g)
    (hu : u ∈ g.members ++ g.leaders)
    (hrec : urec ∈ db.users) (hid : urec.id = u) :
    (∃ lb, generateGroupLeaderboard db gid tf now = .ok lb
       ∧ ∃ e ∈ lb, e.userId = u
         ∧ ((∀ t ∈ groupWindowTimers db g gid tf now, t.user ≠ u) →
             e.tasksCompleted = 0 ∧ e.totalTime = 0 ∧ e.completionRate = 0))
    ∧ (∀ e ∈ (generateGlobalLeaderboard false false db [] tf limit now).1,
        ∃ t ∈ db.timers, t.user = e.userId ∧ t.isCompleted = true
          ∧ (∃ gid2, t.group = some gid2
              ∧ gid2 ∈ (db.groups.filter Group.isPublic).map Group.id)
          ∧ timerInWindow t (globalCutoff tf now) = true) := by
  constructor
  · unfold generateGroupLeaderboard
    rw [hg]
    refine ⟨_, rfl, ?_⟩
    have hfil : urec ∈ db.users.filter
        (fun v => (g.members ++ g.leaders).contains v.id) := by
      rw [List.mem_filter]
      refine ⟨hrec, ?_⟩
      rw [hid]
      simpa using hu
    refine ⟨_, (mem_sortByDesc _ _ _).mpr (List.mem_map_of_mem _ hfil), ?_⟩
    refine ⟨hid, ?_⟩
    intro hnone
    have hz : aggFor (groupWindowTimers db g gid tf now) urec.id = ⟨0, 0, 0⟩ := by
      apply aggFor_of_not_user
      intro t ht
      rw [hid]
      exact hnone t ht
    simp [hz, completionRate]
  · intro e he
    have he1 : e ∈ (computeGlobalEntries db tf limit now).take limit := he
    have he2 := List.mem_of_mem_take he1
    simp only [computeGlobalEntries] at he2
    rcases List.mem_filterMap.mp he2 with ⟨ob, hob, hobe⟩
    rcases List.mem_map.mp hob with ⟨p, hp, hpe⟩
    have hfn := hpe.trans (show ob = some e by simpa using hobe)
    have hp2 := (mem_sortByDesc _ _ _).mp (List.mem_of_mem_take hp)
    rcases List.mem_map.mp hp2 with ⟨uu, huu, hup⟩
    have huu2 : uu ∈ (globalWindowTimers db tf now).map Timer.user :=
      mem_dedup _ _ huu
    rcases List.mem_map.mp huu2 with ⟨t, ht, htu⟩
    simp only [globalWindowTimers] at ht
    have htdb := List.mem_of_mem_filter ht
    have htcond := List.of_mem_filter ht
    simp only [Bool.and_eq_true] at htcond
    obtain ⟨⟨hgrp, hcomp⟩, hwin⟩ := htcond
    refine ⟨t, htdb, ?_, hcomp, ?_, hwin⟩
    · rcases hfu : db.findUser p.1 with _ | urec2
      · rw [hfu] at hfn
        simp at hfn
      · rw [hfu] at hfn
        simp only [] at hfn
        have he3 := Option.some.inj hfn
        have hbe : urec2.id = p.1 := by
          unfold DB.findUser at hfu
          have := List.find?_some hfu
          simpa using this
        have hpu : p.1 = uu := by rw [← hup]
        rw [← he3]
        show t.user = urec2.id
        rw [htu, hbe, hpu]
    · cases hgr : t.group with
      | none =>
          rw [hgr] at hgrp
          simp at hgrp
      | some gid2 =>
          rw [hgr] at hgrp
          refine ⟨gid2, rfl, ?_⟩
          simpa using hgrp

/-- A second user (group leader) with no timers at all. -/
def demoUser2 : User :=
  { id := 21, firstName := "C", lastName := "D", tasksCompleted := 0
  , taskCompletionRate := 0, totalTimeSpent := 0, lastActive := 0 }

/-- A public group: member 20, leader 21. -/
def demoGroup : Group :=
  { id := 30, isPublic := true, leaders := [21], members := [20]
  , completedTasks := 0, totalTasks := 1, totalTimeSpent := 0, lastActive := 0 }

/-- A completed task belonging to the group. -/
def demoGroupTask : Task :=
  { id := 11, creator := 20, group := some 30, assignees := [20]
  , status := .completed, dueDate := 100000, completedAt := some 60000
  , completedBy := [], activeTimers := 0, totalTimers := 1 }

/-- A completed timer of user 20 on the group task. -/
def demoDoneTimer : Timer :=
  { id := 5, task := 11, user := 20, group := some 30, startTime := 0
  , endTime := some 60000, duration := 1, isActive := false
  , isCompleted := true, completedOnTime := true, notes := "" }

/-- Store for the leaderboard witnesses: one completed timer by user 20,
user 21 idle. -/
def demoLBDB : DB :=
  ⟨[demoDoneTimer], [demoGroupTask], [demoUser, demoUser2], [demoGroup], 6⟩

/-- C10 witness: in the demo group, idle leader 21 still gets a row, and
it carries all-zero stats. -/
theorem leaderboard_membership_witness :
    ∃ lb, generateGroupLeaderboard demoLBDB 30 "all" 0 = .ok lb
      ∧ ∃ e ∈ lb, e.userId = 21
        ∧ ((∀ t ∈ groupWindowTimers demoLBDB demoGroup 30 "all" 0, t.user ≠ 21) →
            e.tasksCompleted = 0 ∧ e.totalTime = 0 ∧ e.completionRate = 0) :=
  (leaderboard_membership_spec demoLBDB 30 demoGroup "all" 0 21 demoUser2 5
    (by decide) (by decide) (by decide) (by decide)).1

/-! ## C8: cache failures in the timer service -/

/-- The error of a failed call, if any. -/
def TRes.errOf {α : Type} : TRes α → Option TimerErr
  | .ok _ _ => none
  | .err e _ => some e

/-- C8 counterexample: with the Redis index failing, the very `startTimer`
and `completeTimer` calls that otherwise succeed surface a cache error to
the caller — the unguarded `redisClient.set` / `redisClient.del` is not
caught, so a cache failure does abort the operation. -/
theorem cache_failure_cex :
    (startTimer false demoSys0 10 20 1000).isOk = true ∧
    (startTimer true demoSys0 10 20 1000).errOf = some .cacheError ∧
    (completeTimer false demoSys1 20 "" 91000).isOk = true ∧
    (completeTimer true demoSys1 20 "" 91000).errOf = some .cacheError :=
  ⟨rfl, rfl, rfl, rfl⟩

/-- C8 amended: a failure of the index write/delete aborts the call — the
caller observes `cacheError` — but only after every Store mutation has
been persisted: the error state carries exactly the Store of the
successful run, with the index left untouched. -/
theorem cache_failure_amended (sys : Sys) (taskId userId : Nat) (now : ℤ)
    (notes : String) (now2 : ℤ) :
    ((startTimer false sys taskId userId now).isOk = true →
      startTimer true sys taskId userId now
        = .err .cacheError
            ⟨(resState (startTimer false sys taskId userId now)).db, sys.idx⟩)
    ∧ ((completeTimer false sys userId notes now2).isOk = true →
      completeTimer true sys userId notes now2
        = .err .cacheError
            ⟨(resState (completeTimer false sys userId notes now2)).db, sys.idx⟩) := by
  constructor
  · intro hs
    unfold startTimer at hs ⊢
    split at hs
    next t heq => simp [TRes.isOk] at hs
    next heq =>
      split at hs
      next heq2 => simp [TRes.isOk] at hs
      next task heq2 =>
        split at hs
        next hcond => simp [TRes.isOk] at hs
        next hcond =>
          split at hs
          next hacc => simp [TRes.isOk] at hs
          next hacc =>
            simp only [if_neg hcond, if_neg hacc]
            rfl
  · intro hc
    unfold completeTimer at hc ⊢
    split at hc
    next heq => simp [TRes.isOk] at hc
    next timer heq =>
      split at hc
      next heq2 => simp [TRes.isOk] at hc
      next task heq2 =>
        split at hc
        next heq3 => simp [TRes.isOk] at hc
        next user heq3 =>
          rfl

/-! ## Store-shape lemmas for the two mutating operations -/

theorem saveTask_timers (db : DB) (t : Task) : (db.saveTask t).timers = db.timers := rfl

theorem saveUser_timers (db : DB) (u : User) : (db.saveUser u).timers = db.timers := rfl

theorem groupUpdate_timers (db : DB) (grp : Option Nat) (d now : ℤ) :
    (groupUpdate db grp d now).timers = db.timers := by
  unfold groupUpdate
  cases grp with
  | none => rfl
  | some gid => cases hf : db.findGroup gid <;> simp [hf, DB.saveGroup]

theorem groupUpdate_nextId (db : DB) (grp : Option Nat) (d now : ℤ) :
    (groupUpdate db grp d now).nextTimerId = db.nextTimerId := by
  unfold groupUpdate
  cases grp with
  | none => rfl
  | some gid => cases hf : db.findGroup gid <;> simp [hf, DB.saveGroup]

theorem startMutations_timers (db : DB) (task : Task) (userId : Nat) (tm : Timer) :
    (startMutations db task userId tm).timers = db.timers ++ [tm] := by
  unfold startMutations
  split <;> rfl

theorem startMutations_nextId (db : DB) (task : Task) (userId : Nat) (tm : Timer) :
    (startMutations db task userId tm).nextTimerId = db.nextTimerId + 1 := by
  unfold startMutations
  split <;> rfl

theorem completeStage1_timers (db : DB) (timer : Timer) (task : Task) (userId : Nat)
    (notes : String) (now : ℤ) :
    (completeStage1 db timer task userId notes now).2.2.timers
      = (db.saveTimer (timer.completeM db notes now)).timers := rfl

theorem completeStage1_nextId (db : DB) (timer : Timer) (task : Task) (userId : Nat)
    (notes : String) (now : ℤ) :
    (completeStage1 db timer task userId notes now).2.2.nextTimerId
      = db.nextTimerId := rfl

theorem completeStage2_timers (db2 : DB) (user : User) (t1 : Timer)
    (grp : Option Nat) (now : ℤ) :
    (completeStage2 db2 user t1 grp now).timers = db2.timers := by
  unfold completeStage2
  rw [groupUpdate_timers]
  rfl

theorem completeStage2_nextId (db2 : DB) (user : User) (t1 : Timer)
    (grp : Option Nat) (now : ℤ) :
    (completeStage2 db2 user t1 grp now).nextTimerId = db2.nextTimerId := by
  unfold completeStage2
  rw [groupUpdate_nextId]
  rfl

/-- Either `startTimer` throws before mutating anything, or the user had no
active timer and exactly one fresh active timer document for that user is
appended with the next id. -/
theorem startTimer_shape (cf : Bool) (sys : Sys) (taskId userId : Nat) (now : ℤ) :
    resState (startTimer cf sys taskId userId now) = sys ∨
    (sys.db.findActiveTimer userId = none ∧
     ∃ tm : Timer, tm.user = userId ∧ tm.isActive = true ∧ tm.id = sys.db.nextTimerId ∧
       (resState (startTimer cf sys taskId userId now)).db.timers = sys.db.timers ++ [tm] ∧
       (resState (startTimer cf sys taskId userId now)).db.nextTimerId
         = sys.db.nextTimerId + 1) := by
  unfold startTimer
  split
  next t heq => exact Or.inl rfl
  next heq =>
    split
    next heq2 => exact Or.inl rfl
    next task heq2 =>
      split
      next hcond => exact Or.inl rfl
      next hcond =>
        split
        next hacc => exact Or.inl rfl
        next hacc =>
          split
          next hcf =>
            exact Or.inr ⟨heq, newTimer sys.db taskId userId task.group now,
              rfl, rfl, rfl, startMutations_timers sys.db task userId _,
              startMutations_nextId sys.db task userId _⟩
          next hcf =>
            exact Or.inr ⟨heq, newTimer sys.db taskId userId task.group now,
              rfl, rfl, rfl, startMutations_timers sys.db task userId _,
              startMutations_nextId sys.db task userId _⟩

/-- Either `completeTimer` throws before mutating anything, or the user's
active timer is replaced (by id) with its completed version; the timer id
supply is untouched in every case. -/
theorem completeTimer_shape (cf : Bool) (sys : Sys) (userId : Nat) (notes : String)
    (now : ℤ) :
    resState (completeTimer cf sys userId notes now) = sys ∨
    (∃ timer : Timer, sys.db.findActiveTimer userId = some timer ∧
      (resState (completeTimer cf sys userId notes now)).db.timers
        = (sys.db.saveTimer (timer.completeM sys.db notes now)).timers ∧
      (resState (completeTimer cf sys userId notes now)).db.nextTimerId
        = sys.db.nextTimerId) := by
  unfold completeTimer
  split
  next heq => exact Or.inl rfl
  next timer heq =>
    split
    next heq2 => exact Or.inl rfl
    next task heq2 =>
      split
      next heq3 =>
        exact Or.inr ⟨timer, heq,
          completeStage1_timers sys.db timer task userId notes now,
          completeStage1_nextId sys.db timer task userId notes now⟩
      next user heq3 =>
        split
        next hcf =>
          refine Or.inr ⟨timer, heq, ?_, ?_⟩
          · exact (completeStage2_timers _ _ _ _ _).trans
              (completeStage1_timers sys.db timer task userId notes now)
          · exact (completeStage2_nextId _ _ _ _ _).trans
              (completeStage1_nextId sys.db timer task userId notes now)
        next hcf =>
          refine Or.inr ⟨timer, heq, ?_, ?_⟩
          · exact (completeStage2_timers _ _ _ _ _).trans
              (completeStage1_timers sys.db timer task userId notes now)
          · exact (completeStage2_nextId _ _ _ _ _).trans
              (completeStage1_nextId sys.db timer task userId notes now)

theorem listTaskTimers_state (sys : Sys) (taskId userId page limit : Nat) :
    resState (listTaskTimers sys taskId userId page limit) = sys := by
  unfold listTaskTimers
  split
  next => rfl
  next task heq =>
    split
    next => rfl
    next => rfl

/-! ## The per-user invariant -/

theorem activeCount_zero_of_none (db : DB) (u : Nat)
    (h : db.findActiveTimer u = none) : activeCount db u = 0 := by
  unfold DB.findActiveTimer at h
  unfold activeCount
  rw [List.length_eq_zero, List.filter_eq_nil_iff]
  exact List.find?_eq_none.mp h

theorem activeCount_saveTimer_le (db : DB) (t1 : Timer) (h : t1.isActive = false)
    (u : Nat) : activeCount (db.saveTimer t1) u ≤ activeCount db u := by
  unfold activeCount DB.saveTimer
  rw [← List.countP_eq_length_filter, ← List.countP_eq_length_filter, List.countP_map]
  apply List.countP_mono_left
  intro x hx hpx
  by_cases hid : (x.id == t1.id) = true
  · exfalso
    revert hpx
    simp [Function.comp, hid, h]
  · revert hpx
    simp [Function.comp, hid]

theorem saveTimer_map_id (db : DB) (t1 : Timer) :
    (db.saveTimer t1).timers.map Timer.id = db.timers.map Timer.id := by
  unfold DB.saveTimer
  rw [List.map_map]
  apply List.map_congr_left
  intro x hx
  by_cases hid : (x.id == t1.id) = true
  · have : x.id = t1.id := by simpa using hid
    simp [Function.comp, hid, this]
  · simp [Function.comp, hid]

theorem saveTimer_id_bound (db : DB) (t1 : Timer) (n : Nat)
    (hball : ∀ t ∈ db.timers, t.id < n) (ht1 : t1.id < n) :
    ∀ t ∈ (db.saveTimer t1).timers, t.id < n := by
  intro t ht
  unfold DB.saveTimer at ht
  rcases List.mem_map.mp ht with ⟨x, hx, hfx⟩
  by_cases hid : (x.id == t1.id) = true
  · rw [if_pos hid] at hfx
    rw [← hfx]
    exact ht1
  · rw [if_neg hid] at hfx
    rw [← hfx]
    exact hball x hx

/-- The conjunction of the two maintained invariants. -/
def Inv (sys : Sys) : Prop := ActiveInv sys.db ∧ IdInv sys.db

theorem step_inv {s t : Sys} (h : Inv s) (hst : Step s t) : Inv t := by
  cases hst with
  | start cf taskId userId now =>
    rcases startTimer_shape cf s taskId userId now with hE | ⟨hA, tm, htu, hta, hti, htl, htn⟩
    · rw [hE]
      exact h
    · refine ⟨?_, ?_, ?_⟩
      · intro u
        unfold activeCount
        rw [htl, List.filter_append, List.length_append]
        by_cases hp : (tm.user == u && tm.isActive) = true
        · have hu : u = userId := by
            rw [htu] at hp
            have := (Bool.and_eq_true _ _).mp hp
            have h2 : (userId == u) = true := this.1
            exact (eq_of_beq h2).symm
          subst hu
          have h0 : activeCount s.db u = 0 := activeCount_zero_of_none s.db u (htu ▸ hA)
          unfold activeCount at h0
          rw [h0]
          simp [hp]
        · have : List.filter (fun x => x.user == u && x.isActive) [tm] = [] := by
            simp [hp]
          rw [this]
          simpa using h.1 u
      · rw [htl, List.map_append]
        refine List.Nodup.append h.2.1 (by simp) ?_
        intro a ha hb
        simp at hb
        rcases List.mem_map.mp ha with ⟨x, hx, hxa⟩
        have := h.2.2 x hx
        omega
      · intro t2 ht2
        rw [htn]
        rw [htl] at ht2
        rcases List.mem_append.mp ht2 with h2 | h2
        · have := h.2.2 t2 h2
          omega
        · simp at h2
          subst h2
          omega
  | complete cf userId notes now =>
    rcases completeTimer_shape cf s userId notes now with hE | ⟨timer, hA, htl, htn⟩
    · rw [hE]
      exact h
    · have htimer : timer ∈ s.db.timers := by
        unfold DB.findActiveTimer at hA
        exact List.mem_of_find?_eq_some hA
      refine ⟨?_, ?_, ?_⟩
      · intro u
        have hle := activeCount_saveTimer_le s.db (timer.completeM s.db notes now)
          (completeM_isActive timer s.db notes now) u
        unfold activeCount at hle ⊢
        rw [htl]
        exact le_trans hle (h.1 u)
      · rw [htl]
        have := saveTimer_map_id s.db (timer.completeM s.db notes now)
        rw [show (DB.saveTimer s.db (timer.completeM s.db notes now)).timers.map Timer.id
            = s.db.timers.map Timer.id from this]
        exact h.2.1
      · intro t2 ht2
        rw [htn]
        rw [htl] at ht2
        refine saveTimer_id_bound s.db (timer.completeM s.db notes now) s.db.nextTimerId
          h.2.2 ?_ t2 ht2
        rw [completeM_id]
        exact h.2.2 timer htimer
  | getActive userId now => exact h
  | list taskId userId page limit =>
      rw [listTaskTimers_state]
      exact h

theorem reachable_inv {s0 s : Sys} (h0 : s0.db.timers = []) (hr : Reachable s0 s) :
    Inv s := by
  induction hr with
  | refl =>
    refine ⟨?_, ?_, ?_⟩
    · intro u
      unfold activeCount
      rw [h0]
      simp
    · rw [h0]
      simp
    · intro t ht
      rw [h0] at ht
      simp at ht
  | step hr hst ih => exact step_inv ih hst

/-! ## C1: at most one active timer per user -/

/-- C1: starting from any state with no timers, every state reachable by
core operations (startTimer, completeTimer, getActiveTimer,
listTaskTimers — including their failing runs and runs with a failing
cache) has at most one active Timer per user. -/
theorem active_timer_invariant (s0 s : Sys) (h0 : s0.db.timers = [])
    (hr : Reachable s0 s) (u : Nat) :
    (s.db.timers.filter (fun tm => tm.user == u && tm.isActive)).length ≤ 1 :=
  (reachable_inv h0 hr).1 u

/-- C1 witness: after a start and a complete from the demo state, user 20
has at most one active timer. -/
theorem active_timer_invariant_witness :
    (demoSys2.db.timers.filter (fun tm => tm.user == 20 && tm.isActive)).length ≤ 1 :=
  active_timer_invariant demoSys0 demoSys2 rfl
    (Reachable.step
      (Reachable.step Reachable.refl (Step.start demoSys0 false 10 20 1000))
      (Step.complete demoSys1 false 20 "" 91000)) 20

/-! ## C5: completedOnTime -/

/-- A completed/inactive timer document survives any further core step
unchanged (the only operation that rewrites a timer targets an active
one). -/
theorem step_preserves_inactive {s s2 : Sys} (hst : Step s s2) (hid : IdInv s.db)
    (tm : Timer) (htm : tm ∈ s.db.timers) (hact : tm.isActive = false) :
    tm ∈ s2.db.timers := by
  cases hst with
  | start cf taskId userId now =>
    rcases startTimer_shape cf s taskId userId now with hE | ⟨_, tm2, _, _, _, htl, _⟩
    · rw [hE]
      exact htm
    · rw [htl]
      exact List.mem_append_left _ htm
  | complete cf userId notes now =>
    rcases completeTimer_shape cf s userId notes now with hE | ⟨timer, hA, htl, _⟩
    · rw [hE]
      exact htm
    · rw [htl]
      have htimer : timer ∈ s.db.timers := by
        unfold DB.findActiveTimer at hA
        exact List.mem_of_find?_eq_some hA
      have htAct : timer.isActive = true := by
        have := List.find?_some hA
        have h2 := (Bool.and_eq_true _ _).mp this
        exact h2.2
      have hne : (tm.id == (timer.completeM s.db notes now).id) = false := by
        rw [completeM_id]
        by_contra hc
        have hbeq : (tm.id == timer.id) = true := by
          cases hb : (tm.id == timer.id) with
          | true => rfl
          | false => exact absurd hb hc
        have heqid : tm.id = timer.id := eq_of_beq hbeq
        have htmeq : tm = timer :=
          List.inj_on_of_nodup_map hid.1 htm htimer heqid
        rw [htmeq] at hact
        rw [htAct] at hact
        exact Bool.noConfusion hact
      unfold DB.saveTimer
      have hf : tm = (fun x => if x.id == (timer.completeM s.db notes now).id
          then timer.completeM s.db notes now else x) tm := by
        simp [hne]
      exact hf ▸ List.mem_map_of_mem _ htm
  | getActive userId now => exact htm
  | list taskId userId page limit =>
      rw [listTaskTimers_state]
      exact htm

/-- C5: `complete` persists `completedOnTime = (endTime <= dueDate)`
evaluated at the completion instant against the referenced task, and once
a timer is inactive no reachable core step ever rewrites it — the flag is
never re-evaluated afterwards. -/
theorem completedOnTime_spec (t : Timer) (db : DB) (notes : String) (now : ℤ)
    (task : Task) (s0 s s2 : Sys) (tm : Timer)
    (hfind : db.findTask t.task = some task)
    (h0 : s0.db.timers = []) (hr : Reachable s0 s) (hstep : Step s s2)
    (htm : tm ∈ s.db.timers) (hact : tm.isActive = false) :
    (t.completeM db notes now).completedOnTime = decide (now ≤ task.dueDate)
    ∧ tm ∈ s2.db.timers :=
  ⟨completeM_completedOnTime t db notes now task hfind,
   step_preserves_inactive hstep (reachable_inv h0 hr).2 tm htm hact⟩

/-- The task document of `demoSys1` (after the timer start mutated it). -/
def demoTaskStarted : Task :=
  { id := 10, creator := 20, group := none, assignees := [20]
  , status := .inProgress, dueDate := 100000, completedAt := none
  , completedBy := [], activeTimers := 1, totalTimers := 1 }

/-- The completed timer document of `demoSys2`. -/
def demoTimerFin : Timer :=
  { id := 0, task := 10, user := 20, group := none, startTime := 1000
  , endTime := some 91000, duration := 2, isActive := false
  , isCompleted := true, completedOnTime := true, notes := "" }

/-- C5 witness: completing the demo timer at t=91000 against the task due
at t=100000 stores `completedOnTime = true`, and the completed document
survives a further step untouched. -/
theorem completedOnTime_witness :
    (demoTimerA.completeM demoSys1.db "" 91000).completedOnTime
      = decide ((91000 : ℤ) ≤ demoTaskStarted.dueDate)
    ∧ demoTimerFin ∈ (resState (startTimer false demoSys2 10 20 95000)).db.timers := by
  have hdur : demoTimerA.calculateDuration 91000 = 2 := by
    norm_num [Timer.calculateDuration, jsRound, demoTimerA]
  have htm : demoTimerFin ∈ demoSys2.db.timers := by
    have h1 : demoSys2.db.timers
        = [{ demoTimerA with
              endTime := some 91000,
              isActive := false,
              isCompleted := true,
              duration := demoTimerA.calculateDuration 91000,
              completedOnTime := true }] := rfl
    rw [h1, hdur]
    decide
  exact completedOnTime_spec demoTimerA demoSys1.db "" 91000 demoTaskStarted
    demoSys0 demoSys2 (resState (startTimer false demoSys2 10 20 95000)) demoTimerFin
    (by decide) rfl
    (Reachable.step
      (Reachable.step Reachable.refl (Step.start demoSys0 false 10 20 1000))
      (Step.complete demoSys1 false 20 "" 91000))
    (Step.start demoSys2 false 10 20 95000)
    htm (by decide)

end TaskTracker
